import Mathlib

/-!
# Verification of the `libactors` actor runtime

A shallow embedding, in Lean 4, of the parts of the `libactors` Python
library that its specification talks about: the `Context` derivation
operator, the `Core` registry and its `remove_actor` operation, the
per-class `Router` and its metaclass inheritance rule, the actor serve
loop with its envelope trackers, the initialization sequence, the
generic timer, the deep-copy-on-post discipline, and the `pathlib`
based identity join.

Python values are modelled with ordinary Lean data: object references
and payloads become `Nat`, strings become `String` or `List Char`
(where character-level reasoning is needed), exceptions become error
codes carried in `Except`/`Option`, and `asyncio` state (events,
futures) becomes explicit record fields.  Each definition is a direct
transliteration of the corresponding Python function, with comments
pointing at the source location it embeds.
-/

namespace Libactors

/-! ## Context (`libactors/context.py`)

A `Context` carries a core reference, a logger, an identity string and
an optional current envelope.  `Context.__call__` derives a new
context; each keyword falls back to the current value via Python `or`,
hence a falsy supplied value (None, empty string) cannot override.
The derived object is literally built with the base class constructor
`Context(...)`, so we record the runtime class of the object in a
`cls` tag to capture that subclasses are dropped on derivation. -/

/-- Model of a `libactors.Context` object.  `core` and `log` are opaque
object references (always truthy in Python), `identity` is a string
(falsy iff empty) and `envelope` is an optional envelope reference
(`none` is Python `None`).  `cls` is the runtime class tag of the
object; `Context.__call__` always constructs the base class. -/
structure Context where
  cls : String
  core : Nat
  log : Nat
  identity : String
  envelope : Option Nat
  deriving DecidableEq, Repr

/-- The class tag of the base `Context` class. -/
def contextBaseCls : String := "Context"

/-- Model of `Context.__call__` (context.py lines 59-72).  Each keyword
argument is `kwargs.get(key) or current`: an absent key or a passed
`None` both yield `None` from `kwargs.get`, which is falsy, and a
passed empty string is falsy as well, so in all those cases the
current field value is used.  `core`, `log` and envelope objects are
always truthy when present.  The result is constructed as the base
`Context` class regardless of `self`'s class. -/
def Context.call (self : Context) (core? log? : Option Nat)
    (identity? : Option String) (envelope? : Option Nat) : Context :=
  { cls := contextBaseCls
  , core := match core? with
      | some c => c
      | none => self.core
  , log := match log? with
      | some l => l
      | none => self.log
  , identity := match identity? with
      | some s => if s = "" then self.identity else s
      | none => self.identity
  , envelope := match envelope? with
      | some e => some e
      | none => self.envelope }

/-! ## Core registry (`libactors/core.py`)

The `Core` holds a `running` flag and a mapping from actor id to the
actor object; for `remove_actor` the only relevant per-actor datum is
whether its shutdown event is set (`Actor.is_shutdown`). -/

/-- Model of the `Core` registry state: the `_running` flag and the
`_actors` mapping, reduced to `actor_id ↦ is_shutdown()`. -/
structure Core where
  running : Bool
  actors : List (String × Bool)
  deriving DecidableEq, Repr

/-- Outcome of a `Core.remove_actor` call: the `RuntimeError` raised by
`_assert_running`, the silent return on an absent id, the `ValueError`
raised when the actor is not shut down, or a successful removal. -/
inductive RemoveOutcome where
  | notRunningError
  | silentReturn
  | notShutdownError
  | removed
  deriving DecidableEq, Repr

/-- `actor_id in self._actors` / `self._actors[actor_id]` lookup. -/
def Core.lookupActor (s : Core) (actorId : String) : Option Bool :=
  s.actors.lookup actorId

/-- Model of `Core.remove_actor` (core.py lines 130-150): first
`_assert_running()` raises `RuntimeError` when `_running` is false;
then an absent `actor_id` returns silently; then a live actor (shutdown
event not set) raises `ValueError`; otherwise the entry is deleted. -/
def Core.removeActor (s : Core) (actorId : String) : RemoveOutcome × Core :=
  if ¬ s.running then
    (RemoveOutcome.notRunningError, s)
  else
    match s.actors.lookup actorId with
    | none => (RemoveOutcome.silentReturn, s)
    | some isShut =>
      if ¬ isShut then
        (RemoveOutcome.notShutdownError, s)
      else
        (RemoveOutcome.removed, { s with actors := s.actors.filter (fun p => p.1 ≠ actorId) })

/-- Model of the registry effect of `Core.shutdown` (core.py lines
152-175): it sets `_running` to false (under the lock) and then only
tells `ShutdownMessage` to the registered actors and awaits them; it
never deletes entries from `_actors`. -/
def Core.shutdownCore (s : Core) : Core :=
  { s with running := false }

/-! ## Router and the actor metaclass (`libactors/actor/router.py`,
`libactors/actor/actor.py` lines 54-74)

`Router._handlers` is a Python dict from message class to handler
function; dicts preserve insertion order and `Router.add` only ever
inserts fresh keys (it raises on duplicates), so we model the dict as
an association list in insertion order with first-match lookup.  For
the inheritance claim, message classes and handler functions are
opaque identifiers. -/

/-- First-match lookup in an association list with `Nat` keys; the
model of Python dict lookup (`dict.get` / `in`). -/
def lookupFirst {α : Type} (k : Nat) : List (Nat × α) → Option α
  | [] => none
  | e :: rest => if k = e.1 then some e.2 else lookupFirst k rest

/-- `Option` fallback: the first operand when present, otherwise the
second. -/
def orFirst {α : Type} : Option α → Option α → Option α
  | some a, _ => some a
  | none, b => b

/-- A class router, as the `_handlers` dict: message class ↦ handler. -/
abbrev RouterMap : Type := List (Nat × Nat)

/-- One step of the base-copy loop in `ActorMetaclass.__new__` (actor.py
lines 69-73): `if message_cls not in new_cls._router._handlers:
new_cls._router.add(message_cls, handler)`; `Router.add` inserts the
new entry at the end of the dict. -/
def routerAddIfAbsent (r : RouterMap) (e : Nat × Nat) : RouterMap :=
  if (lookupFirst e.1 r).isSome then r else r ++ [e]

/-- Copy all entries of one base router that are not already bound
(actor.py lines 70-73, one iteration of `for base in bases`). -/
def routerExtendFromBase (r : RouterMap) (base : RouterMap) : RouterMap :=
  base.foldl routerAddIfAbsent r

/-- Model of `ActorMetaclass.__new__` (actor.py lines 57-74): the new
class's router is seeded with the class's own directly-declared
handlers (`own`, in declaration order) and then extended from each
base's router in order, copying only message classes not already
bound. -/
def buildClassRouter (own : RouterMap) (bases : List RouterMap) : RouterMap :=
  bases.foldl routerExtendFromBase own

/-- Lookup of a message class through the bases in order: the entry of
the first base that registers it (used to state the inheritance
theorem). -/
def basesLookup (k : Nat) : List RouterMap → Option Nat
  | [] => none
  | b :: bs => orFirst (lookupFirst k b) (basesLookup k bs)

/-! ## Messages, envelopes, trackers and the serve loop
(`libactors/message.py`, `libactors/actor/actor.py` lines 137-151 and
213-282, `libactors/actor/proxy.py` lines 83-132)

A message's identity for dispatch is its runtime type (`type(message)`),
modelled as a `Nat` tag; its fields are a `Nat` payload.  A handler is
called with `(self, context(envelope=envelope), envelope.message)` and
either returns a value or raises — modelled as a function of the
envelope into `Except`.  The serve loop dequeues `(envelope, tracker)`
pairs FIFO and resolves each dequeued tracker exactly once:
`set_result(UNHANDLED)` when the router has no handler for the exact
message type, `set_result(result)` on normal return, `set_exception(e)`
on raise.  Handling a `ShutdownMessage` stops the service (the base
class handler `handle_shutdown` calls `stop`), and at the top of the
next iteration the loop breaks, leaving every still-queued tracker
unresolved. -/

/-- A message: dispatch tag (= runtime type) and payload. -/
structure Msg where
  tag : Nat
  payload : Nat
  deriving DecidableEq, Repr

/-- An `Envelope` (message.py lines 13-21). -/
structure Envelope where
  eid : Nat
  sender : String
  receiver : String
  replyTo : Option String
  message : Msg
  deriving Repr

/-- The value stored in a tracker's future by `set_result`: either the
handler's return value or the distinguished `UNHANDLED` sentinel
(actor.py line 23). -/
inductive TrackerVal where
  | value (v : Nat)
  | unhandledSentinel
  deriving DecidableEq, Repr

/-- A resolved tracker future: `set_result` stored a `TrackerVal`, or
`set_exception` stored an exception. -/
inductive FutState where
  | resultSet (v : TrackerVal)
  | exceptionSet (e : Nat)
  deriving DecidableEq, Repr

/-- `EnvelopeTracker.is_handled` (actor.py lines 43-51):
`self._fut.result() is not UNHANDLED`. -/
def EnvelopeTracker.isHandled : TrackerVal → Bool
  | TrackerVal.value _ => true
  | TrackerVal.unhandledSentinel => false

/-- A router whose handlers are executable: message tag ↦ handler body.
A handler returns `Except.ok v` (the return value) or
`Except.error e` (a raised exception). -/
abbrev FuncRouter : Type := List (Nat × (Envelope → Except Nat Nat))

/-- One iteration body of the serve loop for a dequeued envelope
(actor.py lines 256-277): `self._router.match(envelope.message)` looks
up the *exact* runtime type; with no handler the tracker future gets
the `UNHANDLED` sentinel; otherwise the handler runs and the future
gets its return value or its raised exception. -/
def dispatchEnvelope (router : FuncRouter) (env : Envelope) : FutState :=
  match lookupFirst env.message.tag router with
  | none => FutState.resultSet TrackerVal.unhandledSentinel
  | some handler =>
    match handler env with
    | Except.ok v => FutState.resultSet (TrackerVal.value v)
    | Except.error e => FutState.exceptionSet e

/-- `Actor.post` over a whole run (actor.py lines 137-151): each post
wraps the (deep-copied) envelope with a fresh tracker and enqueues the
pair; fresh trackers are modelled by consecutive ids starting at `k`.
`Actor.tell_me` and `ActorProxy.tell` both build an envelope and call
`post`, so a run's posts are an arbitrary envelope list. -/
def postFrom (k : Nat) : List Envelope → List (Nat × Envelope)
  | [] => []
  | env :: rest => (k, env) :: postFrom (k + 1) rest

/-- The serve loop over the queue contents (actor.py lines 243-278):
pairs are dequeued FIFO and their trackers resolved; after an envelope
whose message type is `ShutdownMessage` (tag `stopTag`) is handled, the
service is stopped and the loop breaks at its next iteration, so the
remaining queued pairs are dropped with their trackers unresolved.
Returns the list of `(tracker id, terminal future state)` resolutions
in order. -/
def serveQueue (router : FuncRouter) (stopTag : Nat) :
    List (Nat × Envelope) → List (Nat × FutState)
  | [] => []
  | (t, env) :: rest =>
    (t, dispatchEnvelope router env) ::
      (if env.message.tag = stopTag then [] else serveQueue router stopTag rest)

/-- `ActorProxy.tell` (proxy.py lines 83-106): wrap the message in an
envelope with a fresh id, `sender = context.identity`, `receiver =`
the proxy's actor id, and post it. -/
def ActorProxy.tellEnvelope (eid : Nat) (senderIdentity actorId : String)
    (replyTo : Option String) (m : Msg) : Envelope :=
  { eid := eid
  , sender := senderIdentity
  , receiver := actorId
  , replyTo := replyTo
  , message := m }

/-- The errors `ActorProxy.ask` can raise: the exception recorded on
the tracker (re-raised by `await tracker`), or the `RuntimeError`
raised when the message was not handled. -/
inductive AskError where
  | handlerException (e : Nat)
  | unhandledError
  deriving DecidableEq, Repr

/-- `ActorProxy.ask` after the tracker resolved (proxy.py lines
108-132): `result = await tracker` re-raises a stored exception;
otherwise, `if not tracker.is_handled` — i.e. the stored result is the
`UNHANDLED` sentinel — a `RuntimeError` is raised; otherwise `result`
is returned. -/
def ActorProxy.askOutcome (fut : FutState) : Except AskError Nat :=
  match fut with
  | FutState.exceptionSet e => Except.error (AskError.handlerException e)
  | FutState.resultSet TrackerVal.unhandledSentinel => Except.error AskError.unhandledError
  | FutState.resultSet (TrackerVal.value v) => Except.ok v

/-! ## Actor initialization (`libactors/actor/actor.py` lines 223-234
and 197-203)

The init phase of `Actor.serve` runs the user `initialize`; on success
it sets `_initialize_event`; on an exception `e` it logs, sets
`_initialize_event`, then assigns `_initialize_exception = e`, then
re-raises.  There is no suspension point between these statements.  We
model the phase as the ordered list of its primitive effects and the
induced state sequence. -/

/-- Primitive effects of the init phase, in program order. -/
inductive InitEffect where
  | eventSet
  | exceptionStored (e : Nat)
  | reraised (e : Nat)
  deriving DecidableEq, Repr

/-- Model of actor.py lines 223-234: the ordered effects of the init
phase, as a function of what `initialize(context)` did (`ok` = returned,
`error e` = raised `e`).  On raise, line 231 sets the event *first*,
line 233 stores the exception, line 234 re-raises. -/
def serveInitEffects : Except Nat Unit → List InitEffect
  | Except.ok _ => [InitEffect.eventSet]
  | Except.error e =>
    [InitEffect.eventSet, InitEffect.exceptionStored e, InitEffect.reraised e]

/-- The actor's initialization state: `_initialize_event` and
`_initialize_exception` (actor.py lines 112-113). -/
structure InitState where
  initializeEvent : Bool
  initializeException : Option Nat
  deriving DecidableEq, Repr

/-- Fresh actor: event unset, no exception. -/
def initialInitState : InitState := ⟨false, none⟩

/-- Apply one effect to the initialization state. -/
def applyInitEffect (s : InitState) : InitEffect → InitState
  | InitEffect.eventSet => { s with initializeEvent := true }
  | InitEffect.exceptionStored e => { s with initializeException := some e }
  | InitEffect.reraised _ => s

/-- Run a list of effects. -/
def runInitEffects (s : InitState) (effs : List InitEffect) : InitState :=
  effs.foldl applyInitEffect s

/-- `Actor.wait_until_initialized` (actor.py lines 197-203): blocks
until the event is set (`none` = still waiting); once it is, raises
the stashed exception when there is one, else returns. -/
def waitUntilInitialized (s : InitState) : Option (Except Nat Unit) :=
  if s.initializeEvent then
    some (match s.initializeException with
      | some e => Except.error e
      | none => Except.ok ())
  else none

/-! ## The generic timer (`libactors/actor/actor.py` lines 338-381,
`libactors/actor/messages.py` lines 16-31)

`Actor._generic_timer(context, proxy, configuration)`: optionally
sleeps `delay`, sets `repetitions` to the configured value or to
`float('inf')` when that value is falsy (`0`), optionally tells the
payload once immediately (`now`) and decrements, then loops
`while repetitions > 0`: sleep `interval`, tell the payload,
decrement; finally returns one `TimerDoneMessage`.  We record the
observable events of a run; the unbounded (`inf`) loop is modelled
with fuel: the `Bool` result is `true` when the loop exited on its own
and `false` when it was still running after `fuel` unrolled
iterations. -/

/-- Observable events of a timer run. -/
inductive TimerEvent where
  | sleepDelay (d : Nat)
  | sleepInterval (i : Nat)
  | tellMessage (m : Msg)
  | timerDoneReturned
  deriving DecidableEq, Repr

/-- `TimerConfiguration` (messages.py lines 16-31).  `interval` and
`delay` are non-negative durations; `repetitions` is a Python `int`. -/
structure TimerConfiguration where
  message : Msg
  interval : Nat
  delay : Nat
  now : Bool
  repetitions : Int
  deriving DecidableEq, Repr

/-- `repetitions = configuration.repetitions if configuration.repetitions
else float('inf')` (actor.py line 357): `none` models infinity. -/
def timerInitialRepetitions (reps : Int) : Option Int :=
  if reps = 0 then none else some reps

/-- `repetitions > 0` (`inf > 0` is true). -/
def repetitionsPos : Option Int → Bool
  | none => true
  | some n => decide (0 < n)

/-- `repetitions -= 1` (`inf - 1 = inf`). -/
def repetitionsDecrement : Option Int → Option Int
  | none => none
  | some n => some (n - 1)

/-- The `while repetitions > 0` loop (actor.py lines 368-376), fuel
bounding how many iterations are unrolled: each iteration sleeps
`interval`, tells the payload, decrements.  Second component: `true`
iff the loop exited by its condition within the fuel. -/
def timerLoop (interval : Nat) (m : Msg) : Nat → Option Int → List TimerEvent × Bool
  | 0, r => if repetitionsPos r then ([], false) else ([], true)
  | fuel + 1, r =>
    if repetitionsPos r then
      let rest := timerLoop interval m fuel (repetitionsDecrement r)
      (TimerEvent.sleepInterval interval :: TimerEvent.tellMessage m :: rest.1, rest.2)
    else ([], true)

/-- Model of `Actor._generic_timer` (actor.py lines 338-381): the
ordered events of a run with the given fuel, and whether the run
completed.  `if configuration.delay:` sleeps only for a truthy
(nonzero) delay; with `now` the payload is told once before the first
countdown and `repetitions` is decremented; the final
`TimerDoneMessage` is returned exactly when the loop completes. -/
def genericTimer (fuel : Nat) (cfg : TimerConfiguration) : List TimerEvent × Bool :=
  let pre : List TimerEvent :=
    if cfg.delay ≠ 0 then [TimerEvent.sleepDelay cfg.delay] else []
  let r0 := timerInitialRepetitions cfg.repetitions
  let nowEvents : List TimerEvent :=
    if cfg.now then [TimerEvent.tellMessage cfg.message] else []
  let r1 := if cfg.now then repetitionsDecrement r0 else r0
  let loopRun := timerLoop cfg.interval cfg.message fuel r1
  (pre ++ nowEvents ++ loopRun.1
    ++ (if loopRun.2 then [TimerEvent.timerDoneReturned] else []), loopRun.2)

/-! ## Deep copy on post (`libactors/actor/actor.py` lines 146-150)

`Actor.post` runs `envelope = copy.deepcopy(envelope)` before
enqueuing, so the receiver never aliases the sender's live objects.
We model mutable Python objects as cells in a heap; a message's
mutable fields are references into the heap.  `copy.deepcopy`
allocates fresh cells holding copies of the referenced values.  A
receiver's handler can observe exactly the values behind the message's
references; a sender mutating "a mutable field of m" after `tell`
returns writes through the original references. -/

/-- A heap of mutable cells; a reference is an index. -/
abbrev Heap : Type := List Nat

/-- Read the cell behind reference `r`. -/
def readCell (h : Heap) (r : Nat) : Nat := h.getD r 0

/-- Mutate the cell behind reference `r`. -/
def writeCell (h : Heap) (r v : Nat) : Heap := h.set r v

/-- A message with mutable fields: a list of cell references. -/
structure MutMsg where
  refs : List Nat
  deriving DecidableEq, Repr

/-- `copy.deepcopy(envelope)` at post time (actor.py line 148): fresh
cells are allocated at the end of the heap, holding copies of the
current values, and the copied message references those. -/
def deepcopyMsg (h : Heap) (m : MutMsg) : Heap × MutMsg :=
  (h ++ m.refs.map (readCell h), ⟨List.range' h.length m.refs.length⟩)

/-- What a handler can observe of a message: the values behind its
field references. -/
def observeMsg (h : Heap) (m : MutMsg) : List Nat := m.refs.map (readCell h)

/-- Sender-side mutations after `tell` returned: a list of
`(reference, new value)` writes, applied in order. -/
def applyWrites (h : Heap) (ws : List (Nat × Nat)) : Heap :=
  ws.foldl (fun acc w => writeCell acc w.1 w.2) h

/-! ## The identity join (`libactors/core.py` lines 64-66)

`Core._generate_actor_id(base, actor_id)` is
`str(pathlib.Path(base) / actor_id)`.  Both `create_actor` and
`get_proxy` use it on `callee_context.identity` and the relative or
absolute actor id.  We model CPython's `PurePosixPath` parsing and
joining over `List Char` (a Python `str`):

* `splitroot`: a path starting with exactly two `'/'` has root `"//"`,
  one or three-plus give root `"/"`, none gives no root;
* parsing splits the remainder on `'/'` and drops empty and `"."`
  segments;
* `Path(base) / rel`: if `rel` parses with a root it replaces `base`
  entirely, otherwise the segment lists concatenate under `base`'s
  root;
* `str`: root followed by the `'/'`-joined segments; a fully empty
  path prints as `"."`. -/

/-- Number of leading `'/'` characters. -/
def leadingSlashes : List Char → Nat
  | [] => 0
  | c :: cs => if c = '/' then leadingSlashes cs + 1 else 0

/-- Split on `'/'` (keeping empty pieces, like `str.split`). -/
def splitSlash : List Char → List (List Char)
  | [] => [[]]
  | c :: cs =>
    if c = '/' then [] :: splitSlash cs
    else
      match splitSlash cs with
      | [] => [[c]]
      | s :: ss => (c :: s) :: ss

/-- The parse filter of `PurePosixPath`: keep segments that are
nonempty and not `"."`. -/
def keepSeg (seg : List Char) : Bool :=
  if seg = [] then false else if seg = ['.'] then false else true

/-- A parsed `PurePosixPath`: its root (`""`, `"/"` or `"//"`) and its
segments. -/
structure PurePosixPath where
  root : List Char
  segs : List (List Char)
  deriving DecidableEq, Repr

/-- `splitroot`: exactly two leading slashes give the special `"//"`
root; one or three-plus give `"/"`. -/
def rootOf (s : List Char) : List Char :=
  if leadingSlashes s = 2 then ['/', '/']
  else if 1 ≤ leadingSlashes s then ['/']
  else []

/-- Parse a path string. -/
def parsePath (s : List Char) : PurePosixPath :=
  ⟨rootOf s, (splitSlash s).filter keepSeg⟩

/-- `'/'`-join a segment list. -/
def joinSegs : List (List Char) → List Char
  | [] => []
  | s :: rest =>
    match rest with
    | [] => s
    | _ :: _ => s ++ '/' :: joinSegs rest

/-- `str()` of a parsed path. -/
def pathStr (p : PurePosixPath) : List Char :=
  if p.root ≠ [] then p.root ++ joinSegs p.segs
  else if p.segs = [] then ['.']
  else joinSegs p.segs

/-- `Path(base) / rel`: an absolute `rel` replaces `base`. -/
def pathJoin (base : PurePosixPath) (rel : List Char) : PurePosixPath :=
  let q := parsePath rel
  if q.root ≠ [] then q else ⟨base.root, base.segs ++ q.segs⟩

/-- `Core._generate_actor_id` (core.py lines 64-66):
`str(pathlib.Path(base) / actor_id)`. -/
def generateActorId (base actorId : List Char) : List Char :=
  pathStr (pathJoin (parsePath base) actorId)

/-- A plain path segment: nonempty, slash-free and not `"."`. -/
def validSeg (seg : List Char) : Prop :=
  seg ≠ [] ∧ '/' ∉ seg ∧ seg ≠ ['.']

instance (seg : List Char) : Decidable (validSeg seg) := by
  unfold validSeg
  infer_instance

end Libactors

/-! ## Theorems -/

namespace Libactors

/-- Splitting a slash-free string gives the single piece back. -/
theorem splitSlash_no_slash (s : List Char) (h : '/' ∉ s) : splitSlash s = [s] := by
  induction s with
  | nil => rfl
  | cons c cs ih =>
    have hc : ¬ c = '/' := fun hcc => h (hcc ▸ List.mem_cons_self c cs)
    have hcs : '/' ∉ cs := fun hm => h (List.mem_cons_of_mem c hm)
    simp only [splitSlash, if_neg hc, ih hcs]

/-- Splitting past a slash-free piece peels it off. -/
theorem splitSlash_append (s t : List Char) (h : '/' ∉ s) :
    splitSlash (s ++ '/' :: t) = s :: splitSlash t := by
  induction s with
  | nil => simp [splitSlash]
  | cons c cs ih =>
    have hc : ¬ c = '/' := fun hcc => h (hcc ▸ List.mem_cons_self c cs)
    have hcs : '/' ∉ cs := fun hm => h (List.mem_cons_of_mem c hm)
    show splitSlash (c :: (cs ++ '/' :: t)) = (c :: cs) :: splitSlash t
    simp only [splitSlash, if_neg hc, ih hcs]

/-- Splitting a slash-joined list of slash-free segments recovers it. -/
theorem splitSlash_joinSegs (segs : List (List Char)) (hne : segs ≠ [])
    (hv : ∀ s ∈ segs, '/' ∉ s) : splitSlash (joinSegs segs) = segs := by
  induction segs with
  | nil => exact absurd rfl hne
  | cons s rest ih =>
    cases rest with
    | nil => exact splitSlash_no_slash s (hv s (List.mem_cons_self s []))
    | cons s2 r2 =>
      have hjoin : joinSegs (s :: s2 :: r2) = s ++ '/' :: joinSegs (s2 :: r2) := rfl
      rw [hjoin, splitSlash_append s _ (hv s (List.mem_cons_self s (s2 :: r2))),
        ih (by simp) (fun x hx => hv x (List.mem_cons_of_mem s hx))]

/-- A join of valid segments starts with a non-slash character. -/
theorem leadingSlashes_joinSegs (segs : List (List Char))
    (hv : ∀ s ∈ segs, validSeg s) : leadingSlashes (joinSegs segs) = 0 := by
  cases segs with
  | nil => rfl
  | cons s rest =>
    obtain ⟨hne, hnoslash, -⟩ := hv s (List.mem_cons_self s rest)
    cases s with
    | nil => exact absurd rfl hne
    | cons c cs =>
      have hc : ¬ c = '/' := fun hcc => hnoslash (hcc ▸ List.mem_cons_self c cs)
      cases rest with
      | nil => simp [joinSegs, leadingSlashes, hc]
      | cons s2 r2 => simp [joinSegs, leadingSlashes, hc]

/-- Valid segments survive the parse filter. -/
theorem filter_keepSeg_valid (segs : List (List Char))
    (hv : ∀ s ∈ segs, validSeg s) : segs.filter keepSeg = segs := by
  apply List.filter_eq_self.mpr
  intro s hs
  obtain ⟨hne, -, hdot⟩ := hv s hs
  simp [keepSeg, hne, hdot]

/-- Parsing a relative join of valid segments yields no root and the
segments themselves. -/
theorem parsePath_relative (segs : List (List Char)) (hne : segs ≠ [])
    (hv : ∀ s ∈ segs, validSeg s) :
    parsePath (joinSegs segs) = ⟨[], segs⟩ := by
  have h0 : leadingSlashes (joinSegs segs) = 0 := leadingSlashes_joinSegs segs hv
  have hsplit : splitSlash (joinSegs segs) = segs :=
    splitSlash_joinSegs segs hne (fun s hs => (hv s hs).2.1)
  simp [parsePath, rootOf, h0, hsplit, filter_keepSeg_valid segs hv]

/-- Parsing a single-slash absolute join of valid segments yields root
`"/"` and the segments themselves. -/
theorem parsePath_absolute (segs : List (List Char)) (hne : segs ≠ [])
    (hv : ∀ s ∈ segs, validSeg s) :
    parsePath ('/' :: joinSegs segs) = ⟨['/'], segs⟩ := by
  have h0 : leadingSlashes (joinSegs segs) = 0 := leadingSlashes_joinSegs segs hv
  have hsplit : splitSlash (joinSegs segs) = segs :=
    splitSlash_joinSegs segs hne (fun s hs => (hv s hs).2.1)
  simp [parsePath, rootOf, leadingSlashes, splitSlash, h0, hsplit, keepSeg,
    filter_keepSeg_valid segs hv]

/-- Slash-joining distributes over append of nonempty segment lists. -/
theorem joinSegs_append (xs ys : List (List Char)) (hx : xs ≠ []) (hy : ys ≠ []) :
    joinSegs (xs ++ ys) = joinSegs xs ++ '/' :: joinSegs ys := by
  induction xs with
  | nil => exact absurd rfl hx
  | cons s rest ih =>
    cases rest with
    | nil =>
      cases ys with
      | nil => exact absurd rfl hy
      | cons y yr => rfl
    | cons s2 r2 =>
      have h1 : joinSegs ((s :: s2 :: r2) ++ ys) = s ++ '/' :: joinSegs ((s2 :: r2) ++ ys) := by
        cases r2 <;> rfl
      have h2 : joinSegs (s :: s2 :: r2) = s ++ '/' :: joinSegs (s2 :: r2) := rfl
      rw [h1, ih (by simp), h2]
      simp

/-- C8, counterexample: the claim's first clause fails at the root
base.  The root context has identity `"/"`, and
`_generate_actor_id("/", "b")` is `"/b"`, not `"/" + "/" + "b"` =
`"//b"`. -/
theorem identity_join_counterexample :
    generateActorId ['/'] ['b'] ≠ ['/'] ++ '/' :: ['b']
    ∧ generateActorId ['/'] ['b'] = ['/', 'b'] := by
  decide

/-- C8, amended: for a normalized absolute base `B = '/' + joined
segments` other than the root itself and a normalized relative
`rel`, `join(B, rel) = B + '/' + rel`; for the root base,
`join("/", rel) = "/" + rel`; and a normalized absolute `rel`
beginning with a single `'/'` replaces any base entirely:
`join(B, rel) = rel`. -/
theorem identity_join (bsegs rsegs : List (List Char))
    (hb : ∀ s ∈ bsegs, validSeg s) (hbne : bsegs ≠ [])
    (hr : ∀ s ∈ rsegs, validSeg s) (hrne : rsegs ≠ []) :
    generateActorId ('/' :: joinSegs bsegs) (joinSegs rsegs)
      = ('/' :: joinSegs bsegs) ++ '/' :: joinSegs rsegs
    ∧ generateActorId ['/'] (joinSegs rsegs) = '/' :: joinSegs rsegs
    ∧ ∀ base : List Char, generateActorId base ('/' :: joinSegs rsegs)
        = '/' :: joinSegs rsegs := by
  have hpb := parsePath_absolute bsegs hbne hb
  have hpr := parsePath_relative rsegs hrne hr
  have hja := joinSegs_append bsegs rsegs hbne hrne
  refine ⟨?_, ?_, ?_⟩
  · simp [generateActorId, pathJoin, hpb, hpr, pathStr, hja]
  · have hroot : parsePath ['/'] = ⟨['/'], []⟩ := by decide
    simp [generateActorId, pathJoin, hroot, hpr, pathStr]
  · intro base
    have hpabs := parsePath_absolute rsegs hrne hr
    simp [generateActorId, pathJoin, hpabs, pathStr]

/-- C8, witness: `join("/a", "b") = "/a/b"`, `join("/", "b") = "/b"`,
`join("/a", "/b") = "/b"`. -/
theorem identity_join_witness :
    generateActorId ['/', 'a'] ['b'] = ['/', 'a', '/', 'b']
    ∧ generateActorId ['/'] ['b'] = ['/', 'b']
    ∧ generateActorId ['/', 'a'] ['/', 'b'] = ['/', 'b'] := by
  have h := identity_join [['a']] [['b']] (by decide) (by decide) (by decide) (by decide)
  exact ⟨h.1, h.2.1, h.2.2 ['/', 'a']⟩

/-- C10: Deriving a context by invoking it falls back to the current
value for every override whose supplied value is falsy (`None` for
core/log/envelope, `None` or `""` for identity), so no field can be
overridden to a falsy value, and the derived object is always
constructed as the base `Context` class even when the original is a
subclass instance. -/
theorem context_call_falsy_fallback (self : Context)
    (c? l? : Option Nat) (i? : Option String) (e? : Option Nat) (s : String) :
    (Context.call self c? l? i? e?).cls = contextBaseCls
    ∧ (Context.call self none l? i? e?).core = self.core
    ∧ (Context.call self c? none i? e?).log = self.log
    ∧ (Context.call self c? l? (some "") e?).identity = self.identity
    ∧ (Context.call self c? l? none e?).identity = self.identity
    ∧ (Context.call self c? l? i? none).envelope = self.envelope
    ∧ (Context.call self c? l? (some s) e?).identity
        = (if s = "" then self.identity else s) := by
  refine ⟨rfl, rfl, rfl, by simp [Context.call], rfl, rfl, rfl⟩

/-- C7, counterexample: the claim says `remove_actor` returns silently
*whenever* the id is absent from the registry, but when the core is no
longer running the call raises the not-running `RuntimeError` first,
even for an absent id (and likewise a live actor produces the
not-running error rather than the `ValueError`).  Concretely, on a
shut-down core with an empty registry, removing `"/x"` is not silent. -/
theorem remove_actor_absent_not_always_silent :
    Core.lookupActor ⟨false, []⟩ "/x" = none
    ∧ (Core.removeActor ⟨false, []⟩ "/x").1 ≠ RemoveOutcome.silentReturn := by
  constructor
  · rfl
  · decide

/-- C7, amended: when the core is running, `Core.remove_actor` raises
the not-shut-down `ValueError` if the actor registered under the id is
still live (its shutdown event not set), leaving the registry
untouched, and returns silently (without error) whenever the id is
absent from the registry. -/
theorem remove_actor_running_behaviour (s : Core) (actorId : String)
    (hrun : s.running = true) :
    (Core.lookupActor s actorId = some false →
      (Core.removeActor s actorId).1 = RemoveOutcome.notShutdownError
      ∧ (Core.removeActor s actorId).2 = s)
    ∧ (Core.lookupActor s actorId = none →
      (Core.removeActor s actorId).1 = RemoveOutcome.silentReturn
      ∧ (Core.removeActor s actorId).2 = s) := by
  constructor
  · intro hlive
    simp only [Core.lookupActor] at hlive
    simp [Core.removeActor, hrun, hlive]
  · intro habsent
    simp only [Core.lookupActor] at habsent
    simp [Core.removeActor, hrun, habsent]

/-- C7, witness: on a running core holding a live actor `/a` and no
actor `/b`, removing `/a` raises the not-shut-down error and removing
`/b` is silent. -/
theorem remove_actor_running_behaviour_witness :
    (Core.removeActor ⟨true, [("/a", false)]⟩ "/a").1 = RemoveOutcome.notShutdownError
    ∧ (Core.removeActor ⟨true, [("/a", false)]⟩ "/b").1 = RemoveOutcome.silentReturn := by
  refine ⟨((remove_actor_running_behaviour ⟨true, [("/a", false)]⟩ "/a" rfl).1 (by rfl)).1, ?_⟩
  exact ((remove_actor_running_behaviour ⟨true, [("/a", false)]⟩ "/b" rfl).2 (by rfl)).1

/-- `orFirst a none = a`. -/
theorem orFirst_none_right {α : Type} (a : Option α) : orFirst a none = a := by
  cases a <;> rfl

/-- `orFirst` is associative. -/
theorem orFirst_assoc {α : Type} (a b c : Option α) :
    orFirst (orFirst a b) c = orFirst a (orFirst b c) := by
  cases a <;> rfl

/-- First-match lookup distributes over append via `orFirst`. -/
theorem lookupFirst_append {α : Type} (k : Nat) (l₁ l₂ : List (Nat × α)) :
    lookupFirst k (l₁ ++ l₂) = orFirst (lookupFirst k l₁) (lookupFirst k l₂) := by
  induction l₁ with
  | nil => simp [lookupFirst, orFirst]
  | cons e rest ih =>
    by_cases h : k = e.1 <;> simp [lookupFirst, h, ih, orFirst]

/-- Lookup after one conditional insertion: the original binding wins,
otherwise the inserted entry is visible. -/
theorem routerAddIfAbsent_lookup (k : Nat) (r : RouterMap) (e : Nat × Nat) :
    lookupFirst k (routerAddIfAbsent r e)
      = orFirst (lookupFirst k r) (lookupFirst k [e]) := by
  unfold routerAddIfAbsent
  by_cases habs : (lookupFirst e.1 r).isSome
  · simp only [habs, if_true]
    by_cases hk : k = e.1
    · subst hk
      cases hr : lookupFirst e.1 r with
      | some v => rfl
      | none => rw [hr] at habs; simp at habs
    · simp [lookupFirst, hk, orFirst_none_right]
  · simp [habs, lookupFirst_append]

/-- Lookup after extending a router from one base. -/
theorem routerExtendFromBase_lookup (k : Nat) (base : RouterMap) :
    ∀ r : RouterMap, lookupFirst k (routerExtendFromBase r base)
      = orFirst (lookupFirst k r) (lookupFirst k base) := by
  induction base with
  | nil => intro r; simp [routerExtendFromBase, lookupFirst, orFirst_none_right]
  | cons e rest ih =>
    intro r
    simp only [routerExtendFromBase, List.foldl_cons]
    have : rest.foldl routerAddIfAbsent (routerAddIfAbsent r e)
        = routerExtendFromBase (routerAddIfAbsent r e) rest := rfl
    rw [this, ih, routerAddIfAbsent_lookup, orFirst_assoc]
    by_cases hk : k = e.1 <;> simp [lookupFirst, hk, orFirst]

/-- Lookup in a metaclass-built router: the class's own binding first,
otherwise the binding of the first base that registers the class. -/
theorem buildClassRouter_lookup (k : Nat) (bases : List RouterMap) :
    ∀ own : RouterMap, lookupFirst k (buildClassRouter own bases)
      = orFirst (lookupFirst k own) (basesLookup k bases) := by
  induction bases with
  | nil => intro own; simp [buildClassRouter, basesLookup, orFirst_none_right]
  | cons b bs ih =>
    intro own
    simp only [buildClassRouter, List.foldl_cons]
    have : bs.foldl routerExtendFromBase (routerExtendFromBase own b)
        = buildClassRouter (routerExtendFromBase own b) bs := rfl
    rw [this, ih, routerExtendFromBase_lookup, orFirst_assoc, basesLookup]

/-- A successful `basesLookup` comes from one of the bases. -/
theorem basesLookup_mem (k h : Nat) (bases : List RouterMap)
    (hfound : basesLookup k bases = some h) :
    ∃ b ∈ bases, lookupFirst k b = some h := by
  induction bases with
  | nil => simp [basesLookup] at hfound
  | cons b bs ih =>
    cases hb : lookupFirst k b with
    | some v =>
      refine ⟨b, List.mem_cons_self b bs, ?_⟩
      rw [basesLookup, hb] at hfound
      rw [hb]
      exact hfound
    | none =>
      rw [basesLookup, hb] at hfound
      obtain ⟨b', hmem, hlook⟩ := ih hfound
      exact ⟨b', List.mem_cons_of_mem b hmem, hlook⟩

/-- Tracker ids below the posting counter are never resolved by the
serve loop. -/
theorem serveQueue_countP_lt (router : FuncRouter) (stopTag t : Nat) :
    ∀ (posts : List Envelope) (k : Nat), t < k →
      List.countP (fun p => p.1 == t)
        (serveQueue router stopTag (postFrom k posts)) = 0 := by
  intro posts
  induction posts with
  | nil => intro k _; rfl
  | cons env rest ih =>
    intro k hk
    have hne : ¬ (k = t) := by omega
    simp only [postFrom, serveQueue, List.countP_cons]
    by_cases hstop : env.message.tag = stopTag
    · simp [hstop, hne]
    · simp [hstop, hne, ih (k + 1) (by omega)]

/-- No tracker is ever resolved twice by the serve loop. -/
theorem serveQueue_countP_le_one (router : FuncRouter) (stopTag t : Nat) :
    ∀ (posts : List Envelope) (k : Nat),
      List.countP (fun p => p.1 == t)
        (serveQueue router stopTag (postFrom k posts)) ≤ 1 := by
  intro posts
  induction posts with
  | nil => intro k; simp [postFrom, serveQueue]
  | cons env rest ih =>
    intro k
    simp only [postFrom, serveQueue, List.countP_cons]
    by_cases hstop : env.message.tag = stopTag
    · rw [if_pos hstop]
      by_cases hkt : k = t <;> simp [hkt]
    · rw [if_neg hstop]
      by_cases hkt : k = t
      · subst hkt
        have h0 := serveQueue_countP_lt router stopTag k rest (k + 1) (by omega)
        simp [h0]
      · have h1 := ih (k + 1)
        simp [hkt]
        omega

/-- An envelope dequeued before any service stop has its tracker
resolved exactly once, with the dispatch outcome of that envelope. -/
theorem serveQueue_resolves_dequeued (router : FuncRouter) (stopTag : Nat) :
    ∀ (posts : List Envelope) (i k : Nat) (hi : i < posts.length),
      (∀ j (hj : j < i), (posts.get ⟨j, Nat.lt_trans hj hi⟩).message.tag ≠ stopTag) →
      List.countP (fun p => p.1 == (k + i))
          (serveQueue router stopTag (postFrom k posts)) = 1
      ∧ (k + i, dispatchEnvelope router (posts.get ⟨i, hi⟩))
          ∈ serveQueue router stopTag (postFrom k posts) := by
  intro posts
  induction posts with
  | nil => intro i k hi; exact absurd hi (by simp)
  | cons env rest ih =>
    intro i k hi hpre
    cases i with
    | zero =>
      constructor
      · simp only [postFrom, serveQueue, List.countP_cons, Nat.add_zero]
        by_cases hstop : env.message.tag = stopTag
        · rw [if_pos hstop]
          simp
        · rw [if_neg hstop]
          have h0 := serveQueue_countP_lt router stopTag k rest (k + 1) (by omega)
          simp [h0]
      · exact List.mem_cons_self _ _
    | succ n =>
      have henv : env.message.tag ≠ stopTag := hpre 0 (Nat.succ_pos n)
      have hn : n < rest.length := Nat.lt_of_succ_lt_succ hi
      have hpre' : ∀ j (hj : j < n),
          (rest.get ⟨j, Nat.lt_trans hj hn⟩).message.tag ≠ stopTag := by
        intro j hj
        exact hpre (j + 1) (Nat.succ_lt_succ hj)
      obtain ⟨hcount, hmem⟩ := ih n (k + 1) hn hpre'
      have harith : k + 1 + n = k + (n + 1) := by omega
      rw [harith] at hcount hmem
      constructor
      · have hne : ¬ (k = k + (n + 1)) := by omega
        simp only [postFrom, serveQueue, List.countP_cons, if_neg henv]
        simp [hne, hcount]
      · simp only [postFrom, serveQueue, if_neg henv]
        exact List.mem_cons_of_mem _ hmem

/-- C1, amended: for every envelope posted to an actor (via
`Actor.post`, `Actor.tell_me` or `ActorProxy.tell`), the returned
tracker is resolved at most once; it is resolved exactly once — with
terminal state the handler's return value, the raised exception, or
the unhandled sentinel set when the router has no handler for the
message's exact type — provided the serve loop dequeues it, i.e. no
earlier envelope in the queue stopped the actor (a `ShutdownMessage`);
trackers still queued when the loop stops stay unresolved forever. -/
theorem tracker_resolved_exactly_once (router : FuncRouter) (stopTag : Nat)
    (posts : List Envelope) (i : Nat) (hi : i < posts.length) :
    List.countP (fun p => p.1 == i)
        (serveQueue router stopTag (postFrom 0 posts)) ≤ 1
    ∧ ((∀ j (hj : j < i), (posts.get ⟨j, Nat.lt_trans hj hi⟩).message.tag ≠ stopTag) →
      List.countP (fun p => p.1 == i)
          (serveQueue router stopTag (postFrom 0 posts)) = 1
      ∧ (i, dispatchEnvelope router (posts.get ⟨i, hi⟩))
          ∈ serveQueue router stopTag (postFrom 0 posts))
    ∧ (lookupFirst (posts.get ⟨i, hi⟩).message.tag router = none →
      dispatchEnvelope router (posts.get ⟨i, hi⟩)
        = FutState.resultSet TrackerVal.unhandledSentinel)
    ∧ (∀ hd v, lookupFirst (posts.get ⟨i, hi⟩).message.tag router = some hd →
      hd (posts.get ⟨i, hi⟩) = Except.ok v →
      dispatchEnvelope router (posts.get ⟨i, hi⟩)
        = FutState.resultSet (TrackerVal.value v))
    ∧ (∀ hd e, lookupFirst (posts.get ⟨i, hi⟩).message.tag router = some hd →
      hd (posts.get ⟨i, hi⟩) = Except.error e →
      dispatchEnvelope router (posts.get ⟨i, hi⟩) = FutState.exceptionSet e) := by
  refine ⟨serveQueue_countP_le_one router stopTag i posts 0, ?_, ?_, ?_, ?_⟩
  · intro hpre
    have h := serveQueue_resolves_dequeued router stopTag posts i 0 hi hpre
    rw [Nat.zero_add] at h
    exact h
  · intro hnone
    unfold dispatchEnvelope
    simp only [hnone]
  · intro hd v hsome hok
    unfold dispatchEnvelope
    simp only [hsome, hok]
  · intro hd e hsome herr
    unfold dispatchEnvelope
    simp only [hsome, herr]

/-- C1, counterexample to the claim as stated: post a `ShutdownMessage`
(tag 0) and then a data message (tag 1) to an actor whose router
handles both.  The serve loop handles the shutdown envelope, the
service stops, the loop breaks, and the second envelope's tracker is
never resolved — not "exactly once". -/
theorem tracker_resolution_counterexample :
    List.countP (fun p => p.1 == 1)
      (serveQueue
        [(0, fun _ => Except.ok 0), (1, fun env => Except.ok env.message.payload)] 0
        (postFrom 0
          [⟨100, "/", "/a", none, ⟨0, 0⟩⟩, ⟨101, "/", "/a", none, ⟨1, 5⟩⟩])) ≠ 1 := by
  decide

/-- C1, witness: a single posted data envelope on a live actor is
resolved exactly once. -/
theorem tracker_resolved_exactly_once_witness :
    List.countP (fun p => p.1 == 0)
      (serveQueue [(1, fun env => Except.ok env.message.payload)] 0
        (postFrom 0 [⟨9, "/", "/a", none, ⟨1, 4⟩⟩])) = 1 := by
  have h := (tracker_resolved_exactly_once
      [(1, fun env => Except.ok env.message.payload)] 0
      [⟨9, "/", "/a", none, ⟨1, 4⟩⟩] 0 (by decide)).2.1
      (by intro j hj; exact absurd hj (Nat.not_lt_zero j))
  exact h.1

/-- C6: `ActorProxy.ask` tells the message (building the envelope the
way `tell` does) and awaits the tracker: when the actor's router has
no handler for the message's type the terminal state is the unhandled
sentinel and `ask` raises the unhandled `RuntimeError`; when the
handler returns `v`, `ask` returns `v`; when the handler raises `e`,
awaiting the tracker re-raises `e`. -/
theorem proxy_ask_semantics (router : FuncRouter) (eid : Nat)
    (senderIdentity actorId : String) (replyTo : Option String) (m : Msg) :
    (lookupFirst m.tag router = none →
      ActorProxy.askOutcome (dispatchEnvelope router
        (ActorProxy.tellEnvelope eid senderIdentity actorId replyTo m))
        = Except.error AskError.unhandledError)
    ∧ (∀ hd v, lookupFirst m.tag router = some hd →
      hd (ActorProxy.tellEnvelope eid senderIdentity actorId replyTo m) = Except.ok v →
      ActorProxy.askOutcome (dispatchEnvelope router
        (ActorProxy.tellEnvelope eid senderIdentity actorId replyTo m))
        = Except.ok v)
    ∧ (∀ hd e, lookupFirst m.tag router = some hd →
      hd (ActorProxy.tellEnvelope eid senderIdentity actorId replyTo m) = Except.error e →
      ActorProxy.askOutcome (dispatchEnvelope router
        (ActorProxy.tellEnvelope eid senderIdentity actorId replyTo m))
        = Except.error (AskError.handlerException e)) := by
  refine ⟨?_, ?_, ?_⟩
  · intro hnone
    unfold ActorProxy.askOutcome dispatchEnvelope ActorProxy.tellEnvelope
    simp only [hnone]
  · intro hd v hsome hok
    simp only [ActorProxy.tellEnvelope] at hok
    unfold ActorProxy.askOutcome dispatchEnvelope ActorProxy.tellEnvelope
    simp only [hsome, hok]
  · intro hd e hsome herr
    simp only [ActorProxy.tellEnvelope] at herr
    unfold ActorProxy.askOutcome dispatchEnvelope ActorProxy.tellEnvelope
    simp only [hsome, herr]

/-- C6, witness: asking with a message of tag 1, payload 3, on a router
whose handler doubles the payload, returns 6. -/
theorem proxy_ask_semantics_witness :
    ActorProxy.askOutcome (dispatchEnvelope
      [(1, fun env => Except.ok (env.message.payload * 2))]
      (ActorProxy.tellEnvelope 5 "/s" "/r" none ⟨1, 3⟩)) = Except.ok 6 := by
  exact (proxy_ask_semantics [(1, fun env => Except.ok (env.message.payload * 2))]
    5 "/s" "/r" none ⟨1, 3⟩).2.1
    (fun env => Except.ok (env.message.payload * 2)) 6 rfl rfl

/-- The timer loop with a finite repetition count `n` exits on its own
given at least `n.toNat` fuel, tells the payload exactly `n.toNat`
times, and never emits the done event itself. -/
theorem timerLoop_finite (interval : Nat) (m : Msg) :
    ∀ (fuel : Nat) (n : Int), n.toNat ≤ fuel →
      (timerLoop interval m fuel (some n)).2 = true
      ∧ List.countP (fun ev => ev == TimerEvent.tellMessage m)
          (timerLoop interval m fuel (some n)).1 = n.toNat
      ∧ List.countP (fun ev => ev == TimerEvent.timerDoneReturned)
          (timerLoop interval m fuel (some n)).1 = 0 := by
  intro fuel
  induction fuel with
  | zero =>
    intro n hn
    have hpos : repetitionsPos (some n) = false := by
      simp only [repetitionsPos, decide_eq_false_iff_not]
      omega
    simp [timerLoop, hpos]
    omega
  | succ fuel ih =>
    intro n hn
    by_cases hpos : 0 < n
    · have hposb : repetitionsPos (some n) = true := by
        simp [repetitionsPos, hpos]
      have ihn := ih (n - 1) (by omega)
      simp only [timerLoop, hposb, if_true, repetitionsDecrement, List.countP_cons]
      refine ⟨ihn.1, ?_, ?_⟩
      · simp [ihn.2.1]
        omega
      · simp [ihn.2.2]
    · have hposb : repetitionsPos (some n) = false := by
        simp only [repetitionsPos, decide_eq_false_iff_not]
        omega
      simp [timerLoop, hposb]
      omega

/-- The timer loop with infinite repetitions never exits: after any
amount of fuel it is still running, having told the payload once per
unrolled iteration and never emitted the done event. -/
theorem timerLoop_unbounded (interval : Nat) (m : Msg) :
    ∀ fuel : Nat,
      (timerLoop interval m fuel none).2 = false
      ∧ List.countP (fun ev => ev == TimerEvent.tellMessage m)
          (timerLoop interval m fuel none).1 = fuel
      ∧ List.countP (fun ev => ev == TimerEvent.timerDoneReturned)
          (timerLoop interval m fuel none).1 = 0 := by
  intro fuel
  induction fuel with
  | zero => simp [timerLoop, repetitionsPos]
  | succ fuel ih =>
    simp only [timerLoop, repetitionsPos, if_true, repetitionsDecrement, List.countP_cons]
    refine ⟨ih.1, ?_, ?_⟩
    · simp [ih.2.1]
    · simp [ih.2.2]

/-- C3: a timer configured with `repetitions = k > 0` tells exactly `k`
copies of the payload message to the owning actor — the same total
whether `now` is true or false — and returns exactly one
`TimerDoneMessage`; with `now = true` the first send precedes every
interval sleep.  With `repetitions = 0` the sending loop is unbounded
regardless of `now`: after any fuel it is still running, has told the
payload at least `fuel` times and has returned no `TimerDoneMessage`. -/
theorem generic_timer_repetition_count (cfg : TimerConfiguration) (fuel : Nat) :
    (0 < cfg.repetitions → cfg.repetitions.toNat ≤ fuel →
      List.countP (fun ev => ev == TimerEvent.tellMessage cfg.message)
          (genericTimer fuel cfg).1 = cfg.repetitions.toNat
      ∧ List.countP (fun ev => ev == TimerEvent.timerDoneReturned)
          (genericTimer fuel cfg).1 = 1
      ∧ (genericTimer fuel cfg).2 = true
      ∧ (cfg.now = true → ∃ preEvents rest,
          (genericTimer fuel cfg).1
            = preEvents ++ TimerEvent.tellMessage cfg.message :: rest
          ∧ ∀ i, TimerEvent.sleepInterval i ∉ preEvents))
    ∧ (cfg.repetitions = 0 →
      (genericTimer fuel cfg).2 = false
      ∧ fuel ≤ List.countP (fun ev => ev == TimerEvent.tellMessage cfg.message)
          (genericTimer fuel cfg).1
      ∧ List.countP (fun ev => ev == TimerEvent.timerDoneReturned)
          (genericTimer fuel cfg).1 = 0) := by
  have hpreTell : List.countP (fun ev => ev == TimerEvent.tellMessage cfg.message)
      (if cfg.delay ≠ 0 then [TimerEvent.sleepDelay cfg.delay] else []) = 0 := by
    by_cases hd : cfg.delay = 0 <;> simp [hd]
  have hpreDone : List.countP (fun ev => ev == TimerEvent.timerDoneReturned)
      (if cfg.delay ≠ 0 then [TimerEvent.sleepDelay cfg.delay] else []) = 0 := by
    by_cases hd : cfg.delay = 0 <;> simp [hd]
  constructor
  · intro hk hfuel
    have hinit : timerInitialRepetitions cfg.repetitions = some cfg.repetitions := by
      unfold timerInitialRepetitions
      rw [if_neg (by omega : ¬ cfg.repetitions = 0)]
    cases hnow : cfg.now with
    | true =>
      obtain ⟨hfin, htell, hdone⟩ :=
        timerLoop_finite cfg.interval cfg.message fuel (cfg.repetitions - 1) (by omega)
      have htr : (genericTimer fuel cfg).1
          = (if cfg.delay ≠ 0 then [TimerEvent.sleepDelay cfg.delay] else [])
            ++ TimerEvent.tellMessage cfg.message ::
              ((timerLoop cfg.interval cfg.message fuel (some (cfg.repetitions - 1))).1
              ++ [TimerEvent.timerDoneReturned]) := by
        simp [genericTimer, hinit, hnow, repetitionsDecrement, hfin]
      refine ⟨?_, ?_, ?_, ?_⟩
      · rw [htr]
        simp only [List.countP_append, List.countP_cons, List.countP_nil, hpreTell, htell]
        simp
        omega
      · rw [htr]
        simp only [List.countP_append, List.countP_cons, List.countP_nil, hpreDone, hdone]
        simp
      · simp [genericTimer, hinit, hnow, repetitionsDecrement, hfin]
      · intro _
        refine ⟨(if cfg.delay ≠ 0 then [TimerEvent.sleepDelay cfg.delay] else []),
          (timerLoop cfg.interval cfg.message fuel (some (cfg.repetitions - 1))).1
            ++ [TimerEvent.timerDoneReturned], htr, ?_⟩
        intro i
        by_cases hd : cfg.delay = 0 <;> simp [hd]
    | false =>
      obtain ⟨hfin, htell, hdone⟩ :=
        timerLoop_finite cfg.interval cfg.message fuel cfg.repetitions hfuel
      have htr : (genericTimer fuel cfg).1
          = (if cfg.delay ≠ 0 then [TimerEvent.sleepDelay cfg.delay] else [])
            ++ ((timerLoop cfg.interval cfg.message fuel (some cfg.repetitions)).1
              ++ [TimerEvent.timerDoneReturned]) := by
        simp [genericTimer, hinit, hnow, hfin]
      refine ⟨?_, ?_, ?_, ?_⟩
      · rw [htr]
        simp only [List.countP_append, List.countP_cons, List.countP_nil, hpreTell, htell]
        simp
      · rw [htr]
        simp only [List.countP_append, List.countP_cons, List.countP_nil, hpreDone, hdone]
        simp
      · simp [genericTimer, hinit, hnow, hfin]
      · intro hcontr
        exact absurd hcontr (by decide)
  · intro h0
    obtain ⟨hfin, htell, hdone⟩ := timerLoop_unbounded cfg.interval cfg.message fuel
    have hinit : timerInitialRepetitions cfg.repetitions = none := by
      simp [timerInitialRepetitions, h0]
    have hr1 : (if cfg.now = true
        then repetitionsDecrement (timerInitialRepetitions cfg.repetitions)
        else timerInitialRepetitions cfg.repetitions) = none := by
      cases hnow : cfg.now <;> simp [hnow, hinit, repetitionsDecrement]
    have htr : (genericTimer fuel cfg).1
        = (if cfg.delay ≠ 0 then [TimerEvent.sleepDelay cfg.delay] else [])
          ++ ((if cfg.now = true then [TimerEvent.tellMessage cfg.message] else [])
            ++ (timerLoop cfg.interval cfg.message fuel none).1) := by
      simp [genericTimer, hr1, hfin]
    have hnowTell : List.countP (fun ev => ev == TimerEvent.tellMessage cfg.message)
        (if cfg.now = true then [TimerEvent.tellMessage cfg.message] else [])
        = (if cfg.now = true then 1 else 0) := by
      cases hnow : cfg.now <;> simp
    have hnowDone : List.countP (fun ev => ev == TimerEvent.timerDoneReturned)
        (if cfg.now = true then [TimerEvent.tellMessage cfg.message] else []) = 0 := by
      cases hnow : cfg.now <;> simp
    refine ⟨?_, ?_, ?_⟩
    · simp [genericTimer, hr1, hfin]
    · rw [htr]
      simp only [List.countP_append, hpreTell, hnowTell, htell]
      cases hnow : cfg.now <;> simp
    · rw [htr]
      simp only [List.countP_append, hpreDone, hnowDone, hdone]

/-- C3, witness: a timer with payload tag 1, interval 3, no delay,
`now = true`, `repetitions = 2` and fuel 2 tells the payload exactly
twice, returns exactly one `TimerDoneMessage`, and completes. -/
theorem generic_timer_repetition_count_witness :
    List.countP (fun ev => ev == TimerEvent.tellMessage (⟨1, 0⟩ : Msg))
        (genericTimer 2 ⟨⟨1, 0⟩, 3, 0, true, 2⟩).1 = 2
    ∧ List.countP (fun ev => ev == TimerEvent.timerDoneReturned)
        (genericTimer 2 ⟨⟨1, 0⟩, 3, 0, true, 2⟩).1 = 1 := by
  have h := (generic_timer_repetition_count ⟨⟨1, 0⟩, 3, 0, true, 2⟩ 2).1
    (by decide) (by decide)
  exact ⟨h.1, h.2.1⟩

/-- C4: for an actor class built by `ActorMetaclass.__new__` from its
own directly-declared handlers and its bases' routers, a message class
locally bound resolves to the local handler (child overrides parent);
a message class not bound locally resolves to the binding of the first
base that registered it, in particular to the handler of *a* base that
registered it. -/
theorem router_inheritance_child_overrides (own : RouterMap)
    (bases : List RouterMap) (T h : Nat) :
    (lookupFirst T own = some h →
      lookupFirst T (buildClassRouter own bases) = some h)
    ∧ (lookupFirst T own = none →
      lookupFirst T (buildClassRouter own bases) = basesLookup T bases)
    ∧ (lookupFirst T own = none → basesLookup T bases = some h →
      lookupFirst T (buildClassRouter own bases) = some h
      ∧ ∃ b ∈ bases, lookupFirst T b = some h) := by
  refine ⟨?_, ?_, ?_⟩
  · intro hown
    rw [buildClassRouter_lookup, hown]
    rfl
  · intro hown
    rw [buildClassRouter_lookup, hown]
    rfl
  · intro hown hbases
    refine ⟨?_, basesLookup_mem T h bases hbases⟩
    rw [buildClassRouter_lookup, hown, hbases]
    rfl

/-- C4, witness: a class declaring its own handler for message class 1
over two bases — the first binding classes 1 and 2, the second binding
classes 2 and 3 — maps 1 to its local handler and 2 to the first
base's handler. -/
theorem router_inheritance_child_overrides_witness :
    lookupFirst 1 (buildClassRouter [(1, 10)] [[(1, 20), (2, 30)], [(2, 40), (3, 50)]])
      = some 10
    ∧ lookupFirst 2 (buildClassRouter [(1, 10)] [[(1, 20), (2, 30)], [(2, 40), (3, 50)]])
      = some 30 := by
  constructor
  · exact (router_inheritance_child_overrides [(1, 10)]
      [[(1, 20), (2, 30)], [(2, 40), (3, 50)]] 1 10).1 (by decide)
  · exact ((router_inheritance_child_overrides [(1, 10)]
      [[(1, 20), (2, 30)], [(2, 40), (3, 50)]] 2 30).2.2 (by decide) (by decide)).1

/-- C2, counterexample to the claim's ordering: when `initialize`
raises, the code sets `initialize_event` *first* (actor.py line 231)
and stores `initialize_exception` only afterwards (line 233), so the
state sequence of a failing initialization passes through a state with
the event set and no exception stored — the claim's "exception is set
before the event is set" is false. -/
theorem initialize_order_counterexample :
    ∃ s ∈ List.scanl applyInitEffect initialInitState (serveInitEffects (Except.error 7)),
      s.initializeEvent = true ∧ s.initializeException = none := by
  decide

/-- C2, amended: `initialize_event` is set exactly once; if
`Actor.initialize` raises `e`, the event is set first and
`initialize_exception` is set to `e` immediately afterwards (both
before the re-raise, with no suspension point in between), and every
subsequent `wait_until_initialized` call raises `e`; on success every
subsequent call returns normally. -/
theorem initialize_event_and_exception (res : Except Nat Unit) (e : Nat) :
    List.countP (fun eff => eff == InitEffect.eventSet) (serveInitEffects res) = 1
    ∧ serveInitEffects (Except.error e)
        = [InitEffect.eventSet, InitEffect.exceptionStored e, InitEffect.reraised e]
    ∧ waitUntilInitialized
        (runInitEffects initialInitState (serveInitEffects (Except.error e)))
        = some (Except.error e)
    ∧ waitUntilInitialized
        (runInitEffects initialInitState (serveInitEffects (Except.ok ())))
        = some (Except.ok ()) := by
  refine ⟨?_, rfl, rfl, rfl⟩
  cases res <;> rfl

/-- A read through a reference that no write targets is unchanged. -/
theorem readCell_applyWrites_ne (ws : List (Nat × Nat)) :
    ∀ (h1 : Heap) (r : Nat), (∀ w ∈ ws, w.1 ≠ r) →
      readCell (applyWrites h1 ws) r = readCell h1 r := by
  induction ws with
  | nil => intro h1 r _; rfl
  | cons w rest ih =>
    intro h1 r hws
    have hw : w.1 ≠ r := hws w (List.mem_cons_self w rest)
    have hstep : applyWrites h1 (w :: rest) = applyWrites (writeCell h1 w.1 w.2) rest := rfl
    rw [hstep, ih (writeCell h1 w.1 w.2) r (fun w' hw' => hws w' (List.mem_cons_of_mem w hw'))]
    simp [readCell, writeCell, List.getD_eq_getElem?_getD, List.getElem?_set_ne hw]

/-- Reading the freshly allocated cells of an append gives back the
appended values. -/
theorem readCell_fresh (vals : List Nat) :
    ∀ h : Heap, (List.range' h.length vals.length).map (readCell (h ++ vals)) = vals := by
  induction vals with
  | nil => intro h; rfl
  | cons v vs ih =>
    intro h
    simp only [List.length_cons, List.range'_succ, List.map_cons]
    congr 1
    · simp only [readCell]
      rw [List.getD_append_right h (v :: vs) 0 h.length (le_refl h.length)]
      simp
    · have h1 : h ++ v :: vs = (h ++ [v]) ++ vs := by simp
      have h2 : h.length + 1 = (h ++ [v]).length := by simp
      rw [h1, h2]
      exact ih (h ++ [v])

/-- C5: the envelope is deep-copied at post time before being
enqueued, so after `proxy.tell(ctx, m)` returns, the receiver's
observation of the copied message — and hence any handler's behaviour
on it — is the same whether or not the sender subsequently mutates any
mutable field of `m`; moreover the copy observes the same values the
original had at post time. -/
theorem deepcopy_post_noninterference (h : Heap) (m : MutMsg)
    (ws : List (Nat × Nat)) (hvalid : ∀ r ∈ m.refs, r < h.length)
    (hws : ∀ w ∈ ws, w.1 ∈ m.refs) (handler : List Nat → Nat) :
    observeMsg (deepcopyMsg h m).1 (deepcopyMsg h m).2 = observeMsg h m
    ∧ observeMsg (applyWrites (deepcopyMsg h m).1 ws) (deepcopyMsg h m).2
        = observeMsg (deepcopyMsg h m).1 (deepcopyMsg h m).2
    ∧ handler (observeMsg (applyWrites (deepcopyMsg h m).1 ws) (deepcopyMsg h m).2)
        = handler (observeMsg (deepcopyMsg h m).1 (deepcopyMsg h m).2) := by
  have hcopy : observeMsg (deepcopyMsg h m).1 (deepcopyMsg h m).2 = observeMsg h m := by
    simp only [deepcopyMsg, observeMsg]
    have hfresh := readCell_fresh (m.refs.map (readCell h)) h
    rw [List.length_map] at hfresh
    exact hfresh
  have hnoninterf :
      observeMsg (applyWrites (deepcopyMsg h m).1 ws) (deepcopyMsg h m).2
        = observeMsg (deepcopyMsg h m).1 (deepcopyMsg h m).2 := by
    simp only [deepcopyMsg, observeMsg]
    apply List.map_eq_map_iff.mpr
    intro r hr
    have hge : h.length ≤ r := (List.mem_range'_1.mp hr).1
    apply readCell_applyWrites_ne
    intro w hw
    have hmem : w.1 ∈ m.refs := hws w hw
    have hlt : w.1 < h.length := hvalid w.1 hmem
    omega
  exact ⟨hcopy, hnoninterf, congrArg handler hnoninterf⟩

/-- C5, witness: a one-field message whose cell holds `5`; after
posting, the sender overwrites the original cell with `9`; the
receiver still observes `5` through the copy. -/
theorem deepcopy_post_noninterference_witness :
    observeMsg (applyWrites (deepcopyMsg [5] ⟨[0]⟩).1 [(0, 9)]) (deepcopyMsg [5] ⟨[0]⟩).2
      = observeMsg (deepcopyMsg [5] ⟨[0]⟩).1 (deepcopyMsg [5] ⟨[0]⟩).2
    ∧ observeMsg (deepcopyMsg [5] ⟨[0]⟩).1 (deepcopyMsg [5] ⟨[0]⟩).2
      = observeMsg [5] ⟨[0]⟩ := by
  have h := deepcopy_post_noninterference [5] ⟨[0]⟩ [(0, 9)]
    (by decide) (by decide) (fun l => l.getD 0 0)
  exact ⟨h.2.1, h.1⟩

/-- C9: `Core.remove_actor` asserts that the core is running before any
other check, so after `Core.shutdown` has cleared the running flag
every call raises the not-running `RuntimeError` — for any actor id,
present or absent, shut down or not — and the registry is left
untouched: actors whose serve loops exit after shutdown are never
deleted from `Core.actors`. -/
theorem remove_actor_after_shutdown_not_running (s : Core) (actorId : String) :
    (Core.removeActor (Core.shutdownCore s) actorId).1 = RemoveOutcome.notRunningError
    ∧ (Core.removeActor (Core.shutdownCore s) actorId).2.actors = s.actors := by
  constructor <;> simp [Core.removeActor, Core.shutdownCore]

end Libactors
